import Mathlib

/-!
Verification of the Sociala real-time call signaling and session lifecycle
subsystem. Server-side components (Call Lifecycle Controller, Call Room
Signaling Relay, Presence Registry, Notification Channel Manager) are
modelled from the specification, since the Django backend sources are not
part of this repository snapshot (only the README documents them). The
client-side hooks (useWebRTC, usePresence) are embedded directly from the
TypeScript sources.
-/

namespace Sociala

/-- Call kind, `audio` or `video` (Calls table `call_type`). -/
inductive CallType where
  | audio
  | video
  deriving DecidableEq, Repr

/-- Call status enum from the Calls table:
initiated/ringing/accepted/rejected/ended/missed/cancelled. -/
inductive CallStatus where
  | initiated
  | ringing
  | accepted
  | rejected
  | cancelled
  | missed
  | ended
  deriving DecidableEq, Repr

/-- Lifecycle events of the section 4.4 state machine (the `initiate`
event is modelled separately by `createCall`). -/
inductive CallEvent where
  | ringing
  | accept
  | reject
  | cancel
  | end_
  | timeout
  deriving DecidableEq, Repr

/-- Error taxonomy of the control endpoints (section 7). -/
inductive CallError where
  | Unauthorized
  | Forbidden
  | NotFound
  | InvalidTransition
  | InvalidReceiver
  deriving DecidableEq, Repr

/-- Actor performing a transition: a user (by id) or the system timer. -/
inductive Actor where
  | user (id : Nat)
  | system
  deriving DecidableEq, Repr

/-- Call Record (section 3 / Calls table schema). -/
structure CallRecord where
  id : Nat
  caller : Nat
  receiver : Nat
  callType : CallType
  status : CallStatus
  roomId : Nat
  initiatedAt : Nat
  ringingAt : Option Nat
  acceptedAt : Option Nat
  endedAt : Option Nat
  duration : Option Nat
  deriving DecidableEq, Repr

/-- Terminal statuses: rejected, cancelled, missed, ended (glossary). -/
def isTerminal : CallStatus → Bool
  | .rejected => true
  | .cancelled => true
  | .missed => true
  | .ended => true
  | _ => false

/-- Modelled from the spec: section 4.4 transition table, column "Legal
from". The Django lifecycle controller is not in the repository snapshot. -/
def legalFrom : CallEvent → CallStatus → Bool
  | .ringing, .initiated => true
  | .accept, .initiated => true
  | .accept, .ringing => true
  | .reject, .initiated => true
  | .reject, .ringing => true
  | .cancel, .initiated => true
  | .cancel, .ringing => true
  | .end_, .accepted => true
  | .timeout, .initiated => true
  | .timeout, .ringing => true
  | _, _ => false

/-- Status an event moves the record to, per the section 4.4 table. -/
def eventTarget : CallEvent → CallStatus
  | .ringing => .ringing
  | .accept => .accepted
  | .reject => .rejected
  | .cancel => .cancelled
  | .end_ => .ended
  | .timeout => .missed

/-- The edges of the section 4.4 state machine: initiated/ringing to each
of ringing (from initiated only), accepted, rejected, cancelled, missed,
and accepted to ended. -/
def specEdge : CallStatus → CallStatus → Bool
  | .initiated, .ringing => true
  | .initiated, .accepted => true
  | .initiated, .rejected => true
  | .initiated, .cancelled => true
  | .initiated, .missed => true
  | .ringing, .accepted => true
  | .ringing, .rejected => true
  | .ringing, .cancelled => true
  | .ringing, .missed => true
  | .accepted, .ended => true
  | _, _ => false

/-- Modelled from the spec: section 4.1, `Forbidden` if the actor is
neither caller nor receiver of the call; the system timer is always
allowed (it fires the timeout event). -/
def participantOk (a : Actor) (r : CallRecord) : Bool :=
  match a with
  | .system => true
  | .user u => u == r.caller || u == r.receiver

/-- Modelled from the spec: the "Effect" column of the section 4.4 table —
status update plus timestamp bookkeeping (ringing_at, accepted_at,
ended_at, duration = ended_at - accepted_at). -/
def applyEffect (now : Nat) (e : CallEvent) (r : CallRecord) : CallRecord :=
  match e with
  | .ringing => { r with status := .ringing, ringingAt := some now }
  | .accept => { r with status := .accepted, acceptedAt := some now }
  | .reject => { r with status := .rejected }
  | .cancel => { r with status := .cancelled }
  | .end_ =>
    { r with
      status := .ended
      endedAt := some now
      duration := r.acceptedAt.map (fun t => now - t) }
  | .timeout => { r with status := .missed }

/-- Modelled from the spec: section 4.1 `transition` on a single record.
Fails with `Forbidden` for a non-participant actor and with
`InvalidTransition` when the event is not legal from the current status;
the timeout path checks current status before applying `missed`
(section 5, cancellation/timeout). -/
def transitionCall (now : Nat) (a : Actor) (e : CallEvent) (r : CallRecord) :
    Except CallError CallRecord :=
  if participantOk a r then
    if legalFrom e r.status then Except.ok (applyEffect now e r)
    else Except.error CallError.InvalidTransition
  else Except.error CallError.Forbidden

/-- Durable store of call records (section 4.1 Call Record Store). -/
structure CallStore where
  records : List CallRecord
  nextId : Nat
  nextRoom : Nat
  deriving Repr

/-- Look up a call record by id. -/
def findCall (st : CallStore) (cid : Nat) : Option CallRecord :=
  st.records.find? (fun r => r.id == cid)

/-- Replace the record with the given record's id. -/
def replaceCall (st : CallStore) (r2 : CallRecord) : CallStore :=
  { st with records := st.records.map (fun r => if r.id == r2.id then r2 else r) }

/-- Modelled from the spec: store-level `transition(call_id, event,
actor)`. On any error the store is returned unchanged (an invalid
transition "has no side effect"). -/
def storeTransition (st : CallStore) (cid : Nat) (a : Actor) (e : CallEvent)
    (now : Nat) : Except CallError CallRecord × CallStore :=
  match findCall st cid with
  | none => (Except.error CallError.NotFound, st)
  | some r =>
    match transitionCall now a e r with
    | Except.error err => (Except.error err, st)
    | Except.ok r2 => (Except.ok r2, replaceCall st r2)

/-- Modelled from the spec: `create(caller, receiver, kind)` — fails with
`InvalidReceiver` on self-call or unknown receiver; assigns a fresh unique
room identifier at creation. -/
def createCall (st : CallStore) (users : List Nat) (caller receiver : Nat)
    (k : CallType) (now : Nat) : Except CallError (CallRecord × CallStore) :=
  if receiver = caller ∨ receiver ∉ users then Except.error CallError.InvalidReceiver
  else
    let r : CallRecord :=
      { id := st.nextId, caller := caller, receiver := receiver, callType := k,
        status := CallStatus.initiated, roomId := st.nextRoom, initiatedAt := now,
        ringingAt := none, acceptedAt := none, endedAt := none, duration := none }
    Except.ok (r, { records := st.records ++ [r], nextId := st.nextId + 1,
                    nextRoom := st.nextRoom + 1 })

instance : Inhabited CallRecord :=
  ⟨{ id := 0, caller := 0, receiver := 0, callType := CallType.audio,
     status := CallStatus.initiated, roomId := 0, initiatedAt := 0,
     ringingAt := none, acceptedAt := none, endedAt := none, duration := none }⟩

/-- Concrete ended record used to witness claim theorems. -/
def endedRecord : CallRecord :=
  { id := 1, caller := 1, receiver := 2, callType := CallType.video,
    status := CallStatus.ended, roomId := 7, initiatedAt := 0,
    ringingAt := none, acceptedAt := some 3, endedAt := some 9,
    duration := some 6 }

/-- Concrete accepted record used to witness claim theorems. -/
def acceptedRecord : CallRecord :=
  { endedRecord with
    status := CallStatus.accepted
    endedAt := none
    duration := none }

/-- Concrete freshly initiated record used to witness claim theorems. -/
def initiatedRecord : CallRecord :=
  { endedRecord with
    status := CallStatus.initiated
    acceptedAt := none
    endedAt := none
    duration := none }

/-- A one-record store used to witness claim theorems. -/
def demoStore : CallStore :=
  { records := [initiatedRecord], nextId := 2, nextRoom := 8 }

/-- Well-formedness of the call store: record ids and room identifiers
are unique across all records and stay below the store counters. -/
def storeWF (st : CallStore) : Prop :=
  (st.records.map CallRecord.id).Nodup ∧
  (∀ x ∈ st.records.map CallRecord.id, x < st.nextId) ∧
  (st.records.map CallRecord.roomId).Nodup ∧
  (∀ x ∈ st.records.map CallRecord.roomId, x < st.nextRoom)

/-- Modelled from the spec: section 4.2 Presence Entry — is_online flag,
set of open channel handles, last_seen. The Django presence registry is
not in the repository snapshot (src has only the set_online/set_offline
endpoint list). -/
structure PresenceEntry where
  channels : List Nat
  is_online : Bool
  last_seen : Nat
  deriving DecidableEq, Repr

/-- Broadcast events emitted by the presence registry. -/
inductive PresenceBroadcast where
  | wentOnline (userId : Nat)
  | wentOffline (userId : Nat)
  deriving DecidableEq, Repr

/-- Modelled from the spec: `markOnline(user_id, channel_handle)` — adds
the channel handle, marks the user online, and emits an online broadcast
only when this is the first open channel for the user. -/
def markOnline (userId ch : Nat) (e : PresenceEntry) :
    PresenceEntry × List PresenceBroadcast :=
  let chans := if ch ∈ e.channels then e.channels else ch :: e.channels
  ({ e with channels := chans, is_online := true },
   if e.channels.isEmpty then [PresenceBroadcast.wentOnline userId] else [])

/-- Modelled from the spec: `markOffline(user_id, channel_handle)` —
removes the channel handle; the offline transition is committed (flag
cleared, offline broadcast, last_seen updated) only once the last open
channel for the user closes. -/
def markOffline (userId ch now : Nat) (e : PresenceEntry) :
    PresenceEntry × List PresenceBroadcast :=
  let chans := e.channels.erase ch
  if chans.isEmpty then
    ({ channels := chans, is_online := false, last_seen := now },
     [PresenceBroadcast.wentOffline userId])
  else
    ({ e with channels := chans }, [])

/-- A user is reported online iff at least one channel handle is open. -/
def presenceInv (e : PresenceEntry) : Prop :=
  e.is_online = !e.channels.isEmpty

/-- Channel open/close events applied to a presence entry. -/
inductive PresenceOp where
  | openCh (ch : Nat)
  | closeCh (ch : Nat) (now : Nat)
  deriving DecidableEq, Repr

/-- Apply one open/close event to a presence entry. -/
def applyPresenceOp (userId : Nat) (e : PresenceEntry) (op : PresenceOp) :
    PresenceEntry :=
  match op with
  | .openCh ch => (markOnline userId ch e).1
  | .closeCh ch now => (markOffline userId ch now e).1

/-- The presence entry before any channel is open. -/
def initialPresence : PresenceEntry :=
  { channels := [], is_online := false, last_seen := 0 }

/-- Run a sequence of channel open/close events from the initial entry. -/
def runPresence (userId : Nat) (ops : List PresenceOp) : PresenceEntry :=
  ops.foldl (applyPresenceOp userId) initialPresence

/-- Modelled from the spec: section 4.5 — a room keyed by the call's room
identifier, at most two occupants, closed on `end`. The Django room
consumer is not in the repository snapshot. -/
structure Room where
  members : List Nat
  closed : Bool
  deriving DecidableEq, Repr

/-- Relay-level join errors (section 7). -/
inductive RoomError where
  | RoomFull
  | RoomClosed
  deriving DecidableEq, Repr

/-- Modelled from the spec: join fails with `RoomClosed` on a closed room
and with `RoomFull` when two other occupants are already members. -/
def joinRoom (u : Nat) (room : Room) : Except RoomError Room :=
  if room.closed then Except.error RoomError.RoomClosed
  else if u ∈ room.members then Except.ok room
  else if room.members.length ≥ 2 then Except.error RoomError.RoomFull
  else Except.ok { room with members := room.members ++ [u] }

/-- An occupant disconnects from the room. -/
def leaveRoom (u : Nat) (room : Room) : Room :=
  { room with members := room.members.erase u }

/-- Modelled from the spec: the `end` message closes the room; further
joins fail with `RoomClosed`. -/
def closeRoom (room : Room) : Room :=
  { room with closed := true }

/-- Room membership events. -/
inductive RoomOp where
  | join (u : Nat)
  | leave (u : Nat)
  | endRoom
  deriving DecidableEq, Repr

/-- Apply one membership event; a failed join leaves the room unchanged. -/
def applyRoomOp (room : Room) (op : RoomOp) : Room :=
  match op with
  | .join u =>
    match joinRoom u room with
    | Except.ok room2 => room2
    | Except.error _ => room
  | .leave u => leaveRoom u room
  | .endRoom => closeRoom room

/-- The room before anyone joins. -/
def initialRoom : Room := { members := [], closed := false }

/-- Run a sequence of membership events from the empty open room. -/
def runRoom (ops : List RoomOp) : Room := ops.foldl applyRoomOp initialRoom

/-- Room invariant: occupants are distinct and at most two. -/
def roomInv (room : Room) : Prop :=
  room.members.Nodup ∧ room.members.length ≤ 2

/-- Negotiation message kinds relayed verbatim by the room. -/
inductive SignalKind where
  | offer
  | answer
  | iceCandidate
  deriving DecidableEq, Repr

/-- A signaling message: kind, opaque payload, sender identity. -/
structure SignalMsg where
  kind : SignalKind
  payload : Nat
  sender : Nat
  deriving DecidableEq, Repr

/-- Modelled from the spec: section 4.5 — on receipt of offer, answer or
ice-candidate, relay verbatim to the other occupant only (never echoed to
the sender); if the other occupant is absent the message is dropped; the
relay keeps no buffer, so the room state is returned unchanged. -/
def relaySignal (room : Room) (m : SignalMsg) :
    List (Nat × SignalMsg) × Room :=
  ((room.members.filter (fun v => v != m.sender)).map (fun v => (v, m)), room)

/-- Client call data (useWebRTC `CallData` interface). -/
structure CallData where
  id : Nat
  room_id : Nat
  caller_username : String
  receiver_username : String
  call_type : CallType
  status : String
  deriving DecidableEq, Repr

/-- Messages a client can receive on its presence channel
(usePresence handleMessage switch). -/
inductive PresenceInbound where
  | incomingCall (call_id room_id : Nat) (caller_username : String)
      (call_type : CallType)
  | callCancelled (call_id : Nat)
  | callEnded (call_id : Nat)
  | otherMsg
  deriving DecidableEq, Repr

/-- Client presence state relevant to calls (usePresence `incomingCall`). -/
structure PresenceClientState where
  incomingCall : Option CallData
  deriving DecidableEq, Repr

/-- usePresence handleMessage (usePresence.ts lines 59-84): incoming-call
stores the pending call with status ringing and an empty receiver field
(filled in as the current user); call-cancelled and call-ended clear it;
any other message type is ignored. -/
def handleMessage (s : PresenceClientState) (m : PresenceInbound) :
    PresenceClientState :=
  match m with
  | .incomingCall cid rid caller k =>
    let c : CallData :=
      { id := cid, room_id := rid, caller_username := caller,
        receiver_username := "", call_type := k, status := "ringing" }
    { incomingCall := some c }
  | .callCancelled _ => { incomingCall := none }
  | .callEnded _ => { incomingCall := none }
  | .otherMsg => s

/-- Modelled from the spec: section 4.3 — per-user notification channel
state with an idle timer (recommended idle timeout 60s); an inbound
keep-alive resets the idle timer only. The Django consumer is not in the
repository snapshot. -/
structure NotificationChannel where
  userId : Nat
  idleDeadline : Nat
  deriving DecidableEq, Repr

/-- Modelled from the spec: inbound keep-alive handler — resets the idle
deadline and nothing else. -/
def handleKeepAlive (now : Nat) (c : NotificationChannel) :
    NotificationChannel :=
  { c with idleDeadline := now + 60 }

/-- Client presence-connection bookkeeping (usePresence refs:
shouldReconnectRef, reconnectTimeoutRef, wsRef, and the access-token
cookie). -/
structure PresenceConn where
  shouldReconnect : Bool
  pendingReconnect : Bool
  wsAlive : Bool
  hasToken : Bool
  deriving DecidableEq, Repr

/-- setupPresenceWebSocket (usePresence.ts lines 32-45): bails out when
the token is missing or the should-reconnect flag is cleared, and when a
socket is already open or connecting; otherwise opens a new socket. -/
def setupPresenceWebSocket (s : PresenceConn) : PresenceConn :=
  if !s.hasToken || !s.shouldReconnect then s
  else if s.wsAlive then s
  else { s with wsAlive := true }

/-- Events of the reconnect lifecycle. -/
inductive ConnEvent where
  | socketClosed
  | timerFires
  | teardown
  deriving DecidableEq, Repr

/-- One step of the reconnect lifecycle: handleClose schedules a single
reconnection task only while the flag is set (usePresence.ts lines
90-99); the scheduled task runs setupPresenceWebSocket; the effect
cleanup clears the flag, cancels the pending task and closes the socket
(lines 129-148). -/
def connStep (s : PresenceConn) (ev : ConnEvent) : PresenceConn :=
  match ev with
  | .socketClosed =>
    let s1 := { s with wsAlive := false }
    if s1.shouldReconnect then { s1 with pendingReconnect := true } else s1
  | .timerFires =>
    if s.pendingReconnect then
      setupPresenceWebSocket { s with pendingReconnect := false }
    else s
  | .teardown =>
    { s with shouldReconnect := false, pendingReconnect := false,
             wsAlive := false }

/-- Run a sequence of reconnect-lifecycle events. -/
def runConn (s : PresenceConn) (evs : List ConnEvent) : PresenceConn :=
  evs.foldl connStep s

/-- Client-side negotiation state (useWebRTC: pc.remoteDescription, the
pendingIceCandidates ref, and the candidates applied to the peer
connection, in application order). -/
structure PeerNegotiation where
  remoteDescription : Option Nat
  pendingIceCandidates : List Nat
  appliedCandidates : List Nat
  deriving DecidableEq, Repr

/-- ws.onmessage ice-candidate branch (part_000 lines 759-765 and
844-850): apply the candidate directly when the remote description is
set, otherwise append it to the pending queue. -/
def onIceCandidate (s : PeerNegotiation) (c : Nat) : PeerNegotiation :=
  match s.remoteDescription with
  | some _ => { s with appliedCandidates := s.appliedCandidates ++ [c] }
  | none => { s with pendingIceCandidates := s.pendingIceCandidates ++ [c] }

/-- ws.onmessage call-answer / call-offer branch (part_000 lines 748-757
and 818-827): set the remote description, then apply every queued
candidate in order and clear the queue. -/
def onRemoteDescription (s : PeerNegotiation) (d : Nat) : PeerNegotiation :=
  { remoteDescription := some d
    pendingIceCandidates := []
    appliedCandidates := s.appliedCandidates ++ s.pendingIceCandidates }

/-- Client call-session state of useWebRTC (streams, flags, current call,
pending ICE queue, socket and peer-connection handles). -/
structure SessionState where
  localStream : Option (List Nat)
  remoteStream : Option Nat
  isCallActive : Bool
  currentCall : Option CallData
  callStatus : String
  audioEnabled : Bool
  videoEnabled : Bool
  pendingIceCandidates : List Nat
  wsOpen : Bool
  pcOpen : Bool
  deriving DecidableEq, Repr

/-- Side effects performed by endCall. -/
inductive EndAction where
  | sendCallEnd
  | closeSocket
  | closePeer
  | stopTrack (t : Nat)
  deriving DecidableEq, Repr

/-- The reset state endCall leaves behind (useWebRTC initial state). -/
def initialSession : SessionState :=
  { localStream := none
    remoteStream := none
    isCallActive := false
    currentCall := none
    callStatus := ""
    audioEnabled := true
    videoEnabled := true
    pendingIceCandidates := []
    wsOpen := false
    pcOpen := false }

/-- useWebRTC.endCall (part_000 lines 888-919): send call-end and close
the socket only when it is open, close the peer connection when present,
stop every local track, then reset all session state. -/
def endCall (s : SessionState) : SessionState × List EndAction :=
  (initialSession,
   (if s.wsOpen then [EndAction.sendCallEnd, EndAction.closeSocket] else []) ++
   (if s.pcOpen then [EndAction.closePeer] else []) ++
   (s.localStream.getD []).map EndAction.stopTrack)

/-- Concrete live presence connection used to witness claim theorems. -/
def liveConn : PresenceConn :=
  { shouldReconnect := true
    pendingReconnect := false
    wsAlive := true
    hasToken := true }

/-- Concrete negotiation state with one buffered candidate, used to
witness claim theorems. -/
def bufOne : PeerNegotiation :=
  { remoteDescription := none
    pendingIceCandidates := [4]
    appliedCandidates := [] }

/-- Concrete negotiation state with two buffered candidates, used to
witness claim theorems. -/
def bufTwo : PeerNegotiation :=
  { remoteDescription := none
    pendingIceCandidates := [4, 5]
    appliedCandidates := [] }

/-- Concrete active session used to witness claim theorems. -/
def activeSession : SessionState :=
  { localStream := some [4]
    remoteStream := some 1
    isCallActive := true
    currentCall := none
    callStatus := "Connected"
    audioEnabled := false
    videoEnabled := false
    pendingIceCandidates := [3]
    wsOpen := true
    pcOpen := true }

/-- Claim C1: status transitions occur only along the section 4.4 edges;
an event not legal from the current status returns `InvalidTransition`
and leaves the stored record unchanged; no event is ever applied to a
record in a terminal state. -/
theorem C1_state_machine (st : CallStore) (cid : Nat) (r r2 : CallRecord)
    (e : CallEvent) (a : Actor) (now : Nat) :
    (transitionCall now a e r = Except.ok r2 →
      legalFrom e r.status = true ∧ specEdge r.status r2.status = true ∧
      r2.status = eventTarget e) ∧
    (participantOk a r = true → legalFrom e r.status = false →
      transitionCall now a e r = Except.error CallError.InvalidTransition) ∧
    (∀ err, (storeTransition st cid a e now).1 = Except.error err →
      (storeTransition st cid a e now).2 = st) ∧
    (isTerminal r.status = true →
      ∀ r3, transitionCall now a e r ≠ Except.ok r3) := by
  refine ⟨?_, ?_, ?_, ?_⟩
  · intro hok
    unfold transitionCall at hok
    by_cases hp : participantOk a r = true
    · simp [hp] at hok
      by_cases hl : legalFrom e r.status = true
      · simp [hl] at hok
        refine ⟨hl, ?_, ?_⟩
        · subst hok
          cases e <;> cases h : r.status <;>
            simp_all [legalFrom, applyEffect, specEdge]
        · subst hok
          cases e <;> simp [applyEffect, eventTarget]
      · simp [hl] at hok
    · simp [hp] at hok
  · intro hp hl
    unfold transitionCall
    simp [hp, hl]
  · intro err herr
    unfold storeTransition at herr ⊢
    cases hf : findCall st cid with
    | none => simp [hf]
    | some r0 =>
      simp [hf] at herr ⊢
      cases ht : transitionCall now a e r0 with
      | error e0 => simp [ht]
      | ok r3 => simp [ht] at herr
  · intro hterm r3 hok
    unfold transitionCall at hok
    by_cases hp : participantOk a r = true
    · have hl : legalFrom e r.status = false := by
        cases e <;> cases h : r.status <;> simp_all [legalFrom, isTerminal]
      simp [hp, hl] at hok
    · simp [hp] at hok

/-- Witness for C1 at a concrete record: a call already `ended` rejects a
late `accept` with `InvalidTransition`. -/
theorem C1_state_machine_witness :
    transitionCall 10 (Actor.user 2) CallEvent.accept endedRecord =
      Except.error CallError.InvalidTransition := by
  exact (C1_state_machine { records := [], nextId := 0, nextRoom := 0 } 0
    endedRecord default CallEvent.accept (Actor.user 2) 10).2.1
    (by decide) (by decide)

/-- A successful transition changes only status and timestamps: id,
caller, receiver, kind and room identifier are untouched. -/
theorem transitionCall_ok_frame (now : Nat) (a : Actor) (e : CallEvent)
    (r r2 : CallRecord) (h : transitionCall now a e r = Except.ok r2) :
    r2.id = r.id ∧ r2.roomId = r.roomId ∧ r2.caller = r.caller ∧
    r2.receiver = r.receiver ∧ r2.callType = r.callType := by
  unfold transitionCall at h
  by_cases hp : participantOk a r = true
  · by_cases hl : legalFrom e r.status = true
    · simp [hp, hl] at h
      subst h
      cases e <;> simp [applyEffect]
    · simp [hp, hl] at h
  · simp [hp] at h

theorem replaceCall_map_id (st : CallStore) (r2 : CallRecord) :
    (replaceCall st r2).records.map CallRecord.id =
      st.records.map CallRecord.id := by
  unfold replaceCall
  simp only [List.map_map]
  apply List.map_congr_left
  intro r hr
  by_cases h : r.id = r2.id
  · simp [h]
  · simp [h]

theorem replaceCall_map_room (st : CallStore) (r0 r2 : CallRecord)
    (hmem : r0 ∈ st.records) (hid : (st.records.map CallRecord.id).Nodup)
    (h2 : r2.id = r0.id) (hroom : r2.roomId = r0.roomId) :
    (replaceCall st r2).records.map CallRecord.roomId =
      st.records.map CallRecord.roomId := by
  unfold replaceCall
  simp only [List.map_map]
  apply List.map_congr_left
  intro r hr
  by_cases h : r.id = r2.id
  · have hreq : r = r0 := by
      apply List.inj_on_of_nodup_map hid hr hmem
      rw [h, h2]
    subst hreq
    simp [h, hroom]
  · simp [h]

/-- Claim C5: the room identifier is assigned exactly once at create
(fresh, hence unique across all records when presence of the store
invariant), and no transition event ever changes any record's room
identifier. -/
theorem C5_room_id_immutable (st st2 : CallStore) (users : List Nat)
    (caller receiver : Nat) (k : CallType) (now now2 : Nat) (cid : Nat)
    (a : Actor) (e : CallEvent) (r r2 : CallRecord) :
    (transitionCall now a e r = Except.ok r2 → r2.roomId = r.roomId) ∧
    (createCall st users caller receiver k now = Except.ok (r, st2) →
      storeWF st → r.roomId = st.nextRoom ∧ storeWF st2) ∧
    (storeWF st →
      (storeTransition st cid a e now2).2.records.map CallRecord.roomId =
        st.records.map CallRecord.roomId ∧
      storeWF (storeTransition st cid a e now2).2) := by
  refine ⟨?_, ?_, ?_⟩
  · intro h
    exact (transitionCall_ok_frame now a e r r2 h).2.1
  · intro hok hwf
    unfold createCall at hok
    by_cases hg : receiver = caller ∨ receiver ∉ users
    · simp [hg] at hok
    · rw [if_neg hg] at hok
      simp only [Except.ok.injEq, Prod.mk.injEq] at hok
      obtain ⟨hr, hst⟩ := hok
      obtain ⟨hn1, hb1, hn2, hb2⟩ := hwf
      subst hst
      constructor
      · rw [← hr]
      · unfold storeWF
        dsimp only
        refine ⟨?_, ?_, ?_, ?_⟩
        · simp only [List.map_append, List.nodup_append, List.map_cons,
            List.map_nil]
          refine ⟨hn1, List.nodup_singleton _, ?_⟩
          intro x hx
          have := hb1 x hx
          simp only [List.mem_singleton]
          omega
        · intro x hx
          simp only [List.map_append, List.mem_append, List.map_cons,
            List.map_nil, List.mem_singleton] at hx
          rcases hx with hx | hx
          · have := hb1 x hx
            omega
          · omega
        · simp only [List.map_append, List.nodup_append, List.map_cons,
            List.map_nil]
          refine ⟨hn2, List.nodup_singleton _, ?_⟩
          intro x hx
          have := hb2 x hx
          simp only [List.mem_singleton]
          omega
        · intro x hx
          simp only [List.map_append, List.mem_append, List.map_cons,
            List.map_nil, List.mem_singleton] at hx
          rcases hx with hx | hx
          · have := hb2 x hx
            omega
          · omega
  · intro hwf
    obtain ⟨hn1, hb1, hn2, hb2⟩ := hwf
    cases hf : findCall st cid with
    | none =>
      simp only [storeTransition, hf]
      exact ⟨trivial, hn1, hb1, hn2, hb2⟩
    | some r0 =>
      cases ht : transitionCall now2 a e r0 with
      | error err =>
        simp only [storeTransition, hf, ht]
        exact ⟨trivial, hn1, hb1, hn2, hb2⟩
      | ok r3 =>
        have hmem : r0 ∈ st.records := List.mem_of_find?_eq_some hf
        have hfr := transitionCall_ok_frame now2 a e r0 r3 ht
        have hrid : (replaceCall st r3).records.map CallRecord.id =
            st.records.map CallRecord.id := replaceCall_map_id st r3
        have hrm : (replaceCall st r3).records.map CallRecord.roomId =
            st.records.map CallRecord.roomId :=
          replaceCall_map_room st r0 r3 hmem hn1 hfr.1 hfr.2.1
        simp only [storeTransition, hf, ht]
        refine ⟨hrm, ?_, ?_, ?_, ?_⟩
        · rw [hrid]
          exact hn1
        · intro x hx
          rw [hrid] at hx
          exact hb1 x hx
        · rw [hrm]
          exact hn2
        · intro x hx
          rw [hrm] at hx
          exact hb2 x hx

/-- Witness for C5: a ringing transition on a one-record store preserves
every room identifier and the uniqueness invariant. -/
theorem C5_room_id_immutable_witness :
    (storeTransition demoStore 1 (Actor.user 1) CallEvent.ringing 5).2.records.map
        CallRecord.roomId = demoStore.records.map CallRecord.roomId ∧
    storeWF (storeTransition demoStore 1 (Actor.user 1) CallEvent.ringing 5).2 := by
  have h := (C5_room_id_immutable demoStore demoStore [] 0 0 CallType.audio 0 5 1
    (Actor.user 1) CallEvent.ringing default default).2.2
    (by refine ⟨?_, ?_, ?_, ?_⟩ <;> decide)
  exact ⟨h.1, h.2⟩

/-- Claim C3: the timeout event is a no-op on any record whose status is
terminal or accepted (checked against current status before applying
`missed`); in particular an accept committed before the timer fires wins
and the record never becomes missed; timeout moves a record to `missed`
only from initiated or ringing. -/
theorem C3_timeout_no_op (r r2 r3 : CallRecord) (now now2 : Nat) (a : Actor) :
    (isTerminal r.status = true ∨ r.status = CallStatus.accepted →
      transitionCall now Actor.system CallEvent.timeout r =
        Except.error CallError.InvalidTransition) ∧
    (transitionCall now a CallEvent.accept r = Except.ok r2 →
      r2.status = CallStatus.accepted ∧
      transitionCall now2 Actor.system CallEvent.timeout r2 =
        Except.error CallError.InvalidTransition) ∧
    (transitionCall now Actor.system CallEvent.timeout r = Except.ok r3 →
      (r.status = CallStatus.initiated ∨ r.status = CallStatus.ringing) ∧
      r3.status = CallStatus.missed) := by
  refine ⟨?_, ?_, ?_⟩
  · intro hterm
    have hl : legalFrom CallEvent.timeout r.status = false := by
      rcases hterm with hterm | hterm
      · cases h : r.status <;> simp_all [legalFrom, isTerminal]
      · simp [hterm, legalFrom]
    unfold transitionCall
    simp [participantOk, hl]
  · intro hok
    unfold transitionCall at hok
    by_cases hp : participantOk a r = true
    · by_cases hl : legalFrom CallEvent.accept r.status = true
      · simp [hp, hl] at hok
        subst hok
        constructor
        · simp [applyEffect]
        · unfold transitionCall
          simp [participantOk, applyEffect, legalFrom]
      · simp [hp, hl] at hok
    · simp [hp] at hok
  · intro hok
    unfold transitionCall at hok
    by_cases hl : legalFrom CallEvent.timeout r.status = true
    · simp [participantOk, hl] at hok
      subst hok
      constructor
      · cases h : r.status <;> simp_all [legalFrom]
      · simp [applyEffect]
    · simp [participantOk, hl] at hok

/-- Witness for C3: a record already accepted rejects the timeout firing
at time 45. -/
theorem C3_timeout_no_op_witness :
    transitionCall 45 Actor.system CallEvent.timeout acceptedRecord =
      Except.error CallError.InvalidTransition := by
  exact (C3_timeout_no_op acceptedRecord default default 45 0 Actor.system).1
    (Or.inr rfl)

theorem markOnline_inv (u ch : Nat) (e : PresenceEntry) :
    presenceInv (markOnline u ch e).1 := by
  unfold markOnline presenceInv
  by_cases hmem : ch ∈ e.channels
  · simp only [hmem, if_true]
    have : e.channels ≠ [] := List.ne_nil_of_mem hmem
    simp [this]
  · simp [hmem]

theorem markOffline_inv (u ch now : Nat) (e : PresenceEntry)
    (h : presenceInv e) : presenceInv (markOffline u ch now e).1 := by
  unfold markOffline
  by_cases hemp : (e.channels.erase ch).isEmpty = true
  · simp only [hemp, if_true]
    unfold presenceInv
    simp [hemp]
  · simp only [hemp, if_false]
    unfold presenceInv at h ⊢
    have hne : e.channels ≠ [] := by
      intro hnil
      rw [hnil] at hemp
      simp [List.erase] at hemp
    simp only [h]
    simp [hne, List.isEmpty_iff, hemp]

theorem presence_step_inv (u : Nat) (e : PresenceEntry) (op : PresenceOp)
    (h : presenceInv e) : presenceInv (applyPresenceOp u e op) := by
  cases op with
  | openCh ch => exact markOnline_inv u ch e
  | closeCh ch now => exact markOffline_inv u ch now e h

theorem presence_foldl_inv (u : Nat) (ops : List PresenceOp)
    (e : PresenceEntry) (h : presenceInv e) :
    presenceInv (ops.foldl (applyPresenceOp u) e) := by
  induction ops generalizing e with
  | nil => exact h
  | cons op rest ih => exact ih _ (presence_step_inv u e op h)

/-- Claim C4: a user is online iff at least one channel is open (the
invariant holds in every reachable entry); opening a second channel while
one is open emits no duplicate online broadcast; the offline transition is
committed only when the last open channel closes. -/
theorem C4_presence_registry (userId ch now : Nat) (e : PresenceEntry)
    (ops : List PresenceOp) :
    presenceInv (runPresence userId ops) ∧
    (presenceInv e → presenceInv (markOnline userId ch e).1 ∧
      presenceInv (markOffline userId ch now e).1) ∧
    (e.channels ≠ [] → (markOnline userId ch e).2 = []) ∧
    ((markOffline userId ch now e).1.channels ≠ [] →
      (markOffline userId ch now e).2 = [] ∧
      (markOffline userId ch now e).1.is_online = e.is_online) ∧
    ((markOffline userId ch now e).2 ≠ [] →
      (markOffline userId ch now e).1.channels = [] ∧
      (markOffline userId ch now e).1.is_online = false) := by
  refine ⟨?_, ?_, ?_, ?_, ?_⟩
  · exact presence_foldl_inv userId ops initialPresence (by rfl)
  · intro h
    exact ⟨markOnline_inv userId ch e, markOffline_inv userId ch now e h⟩
  · intro hne
    unfold markOnline
    simp [hne]
  · intro hne
    unfold markOffline at hne ⊢
    by_cases hemp : (e.channels.erase ch).isEmpty = true
    · simp only [hemp, if_true] at hne
      rw [List.isEmpty_iff] at hemp
      exact absurd hemp hne
    · simp [hemp]
  · intro hne
    unfold markOffline at hne ⊢
    by_cases hemp : (e.channels.erase ch).isEmpty = true
    · simp only [hemp, if_true]
      rw [List.isEmpty_iff] at hemp
      exact ⟨hemp, trivial⟩
    · simp [hemp] at hne

/-- Witness for C4: with channel 5 already open, opening channel 6 emits
no duplicate online broadcast, and the entry reached by open 5, open 6,
close 5 satisfies the invariant. -/
theorem C4_presence_registry_witness :
    (markOnline 1 6 { channels := [5], is_online := true, last_seen := 0 }).2 =
      [] ∧
    presenceInv (runPresence 1
      [PresenceOp.openCh 5, PresenceOp.openCh 6, PresenceOp.closeCh 5 9]) := by
  constructor
  · exact (C4_presence_registry 1 6 0
      { channels := [5], is_online := true, last_seen := 0 } []).2.2.1
      (by decide)
  · exact (C4_presence_registry 1 6 0
      { channels := [5], is_online := true, last_seen := 0 }
      [PresenceOp.openCh 5, PresenceOp.openCh 6, PresenceOp.closeCh 5 9]).1

theorem joinRoom_inv (u : Nat) (room r2 : Room) (h : roomInv room)
    (hok : joinRoom u room = Except.ok r2) : roomInv r2 := by
  unfold joinRoom at hok
  by_cases hc : room.closed = true
  · simp [hc] at hok
  · simp only [hc] at hok
    by_cases hmem : u ∈ room.members
    · simp [hmem] at hok
      subst hok
      exact h
    · simp only [hmem, if_false, if_true, Bool.false_eq_true] at hok
      by_cases hlen : room.members.length ≥ 2
      · simp [hlen] at hok
      · simp only [hlen, if_false] at hok
        injection hok with hok
        subst hok
        unfold roomInv at h ⊢
        constructor
        · simp [List.nodup_append, h.1, hmem]
        · simp only [List.length_append, List.length_singleton]
          omega

theorem room_step_inv (room : Room) (op : RoomOp) (h : roomInv room) :
    roomInv (applyRoomOp room op) := by
  cases op with
  | join u =>
    simp only [applyRoomOp]
    cases hok : joinRoom u room with
    | ok r2 =>
      simp only [hok]
      exact joinRoom_inv u room r2 h hok
    | error err =>
      simp only [hok]
      exact h
  | leave u =>
    simp only [applyRoomOp]
    unfold leaveRoom roomInv
    unfold roomInv at h
    dsimp only
    constructor
    · exact h.1.erase u
    · have hle : (room.members.erase u).length ≤ room.members.length :=
        List.length_erase_le u room.members
      omega
  | endRoom =>
    simp only [applyRoomOp]
    exact h

theorem room_foldl_inv (ops : List RoomOp) (room : Room) (h : roomInv room) :
    roomInv (ops.foldl applyRoomOp room) := by
  induction ops generalizing room with
  | nil => exact h
  | cons op rest ih => exact ih _ (room_step_inv room op h)

/-- Claim C6: every reachable room has at most two distinct members; a
third join attempt fails with `RoomFull` and leaves the memberships
unchanged; after the end transition closes the room, any further join
fails with `RoomClosed`. -/
theorem C6_room_capacity (u v : Nat) (room : Room) (ops : List RoomOp) :
    roomInv (runRoom ops) ∧
    (room.members.length = 2 → u ∉ room.members → room.closed = false →
      joinRoom u room = Except.error RoomError.RoomFull ∧
      applyRoomOp room (RoomOp.join u) = room) ∧
    (joinRoom v (applyRoomOp room RoomOp.endRoom) =
      Except.error RoomError.RoomClosed) := by
  refine ⟨?_, ?_, ?_⟩
  · exact room_foldl_inv ops initialRoom (by constructor <;> simp [initialRoom])
  · intro hlen hmem hc
    have hj : joinRoom u room = Except.error RoomError.RoomFull := by
      unfold joinRoom
      simp [hc, hmem, hlen]
    refine ⟨hj, ?_⟩
    simp only [applyRoomOp, hj]
  · simp only [applyRoomOp]
    unfold closeRoom joinRoom
    simp

/-- Witness for C6: a join by user 3 into the full room {1, 2} fails with
`RoomFull` and changes nothing. -/
theorem C6_room_capacity_witness :
    joinRoom 3 { members := [1, 2], closed := false } =
      Except.error RoomError.RoomFull ∧
    applyRoomOp { members := [1, 2], closed := false } (RoomOp.join 3) =
      { members := [1, 2], closed := false } := by
  exact (C6_room_capacity 3 0 { members := [1, 2], closed := false } []).2.1
    (by decide) (by decide) (by decide)

/-- Claim C2: a signaling message from occupant A is relayed verbatim to
every other occupant present, never echoed back to the sender, dropped
when no other occupant is present, and the relay state is unchanged (no
buffering). -/
theorem C2_relay_delivery (room : Room) (m : SignalMsg) :
    (relaySignal room m).2 = room ∧
    (∀ b, b ∈ room.members → b ≠ m.sender →
      (b, m) ∈ (relaySignal room m).1) ∧
    (∀ b x, (b, x) ∈ (relaySignal room m).1 →
      b ≠ m.sender ∧ x = m ∧ b ∈ room.members) ∧
    ((∀ b ∈ room.members, b = m.sender) → (relaySignal room m).1 = []) := by
  refine ⟨rfl, ?_, ?_, ?_⟩
  · intro b hb hne
    unfold relaySignal
    simp only [List.mem_map, List.mem_filter]
    exact ⟨b, ⟨hb, by simp [hne]⟩, rfl⟩
  · intro b x hbx
    unfold relaySignal at hbx
    simp only [List.mem_map, List.mem_filter] at hbx
    obtain ⟨v, ⟨hv, hvne⟩, heq⟩ := hbx
    injection heq with h1 h2
    subst h1
    subst h2
    refine ⟨?_, rfl, hv⟩
    simpa using hvne
  · intro hall
    unfold relaySignal
    have : room.members.filter (fun v => v != m.sender) = [] := by
      rw [List.filter_eq_nil_iff]
      intro a ha
      simp [hall a ha]
    simp [this]

/-- Witness for C2: in a room with occupants 1 and 2, an offer from 1 is
delivered exactly to 2. -/
theorem C2_relay_delivery_witness :
    ((2 : Nat), { kind := SignalKind.offer, payload := 42, sender := 1 :
        SignalMsg }) ∈
      (relaySignal { members := [1, 2], closed := false }
        { kind := SignalKind.offer, payload := 42, sender := 1 }).1 := by
  exact (C2_relay_delivery { members := [1, 2], closed := false }
    { kind := SignalKind.offer, payload := 42, sender := 1 }).2.1 2
    (by decide) (by decide)

/-- Claim C7: an incoming-call event makes exactly that call the pending
incoming call with status ringing; call-cancelled and call-ended events
clear it; any unmatched message type leaves the client state unchanged;
the server-side inbound keep-alive resets the idle timer and nothing
else. -/
theorem C7_presence_messages (s : PresenceClientState) (cid rid : Nat)
    (caller : String) (k : CallType) (c : NotificationChannel) (now : Nat) :
    (handleMessage s (PresenceInbound.incomingCall cid rid caller k)).incomingCall =
      some { id := cid, room_id := rid, caller_username := caller,
             receiver_username := "", call_type := k, status := "ringing" } ∧
    (handleMessage s (PresenceInbound.callCancelled cid)).incomingCall = none ∧
    (handleMessage s (PresenceInbound.callEnded cid)).incomingCall = none ∧
    handleMessage s PresenceInbound.otherMsg = s ∧
    (handleKeepAlive now c).userId = c.userId ∧
    (handleKeepAlive now c).idleDeadline = now + 60 :=
  ⟨rfl, rfl, rfl, rfl, rfl, rfl⟩

theorem conn_dead_step (s : PresenceConn) (ev : ConnEvent)
    (hflag : s.shouldReconnect = false) (halive : s.wsAlive = false) :
    (connStep s ev).shouldReconnect = false ∧ (connStep s ev).wsAlive = false := by
  cases ev with
  | socketClosed => simp [connStep, hflag, halive]
  | timerFires =>
    simp only [connStep]
    by_cases hp : s.pendingReconnect = true
    · simp only [hp, if_true]
      unfold setupPresenceWebSocket
      simp [hflag, halive]
    · simp only [hp]
      simp only [Bool.not_eq_true] at hp
      simp [hp, hflag, halive]
  | teardown => simp [connStep, halive]

theorem conn_dead_run (evs : List ConnEvent) (s : PresenceConn)
    (hflag : s.shouldReconnect = false) (halive : s.wsAlive = false) :
    (runConn s evs).shouldReconnect = false ∧ (runConn s evs).wsAlive = false := by
  induction evs generalizing s with
  | nil => exact ⟨hflag, halive⟩
  | cons ev rest ih =>
    have h := conn_dead_step s ev hflag halive
    exact ih (connStep s ev) h.1 h.2

/-- Claim C8: an unexpected close schedules exactly one reconnection task
(a cancellable timeout) and only while the should-reconnect flag is set;
the scheduled task reconnects only while the flag is set; teardown
clears the flag, cancels the pending task and closes the socket, and
afterwards no sequence of close/timer events ever reconnects. -/
theorem C8_reconnect_teardown (s : PresenceConn) (evs : List ConnEvent) :
    (s.shouldReconnect = true →
      (connStep s ConnEvent.socketClosed).pendingReconnect = true ∧
      (connStep s ConnEvent.socketClosed).wsAlive = false) ∧
    (s.shouldReconnect = false →
      (connStep s ConnEvent.socketClosed).pendingReconnect =
        s.pendingReconnect) ∧
    (s.shouldReconnect = false →
      (connStep s ConnEvent.timerFires).wsAlive = s.wsAlive) ∧
    ((connStep s ConnEvent.teardown).shouldReconnect = false ∧
      (connStep s ConnEvent.teardown).pendingReconnect = false ∧
      (connStep s ConnEvent.teardown).wsAlive = false) ∧
    (runConn (connStep s ConnEvent.teardown) evs).wsAlive = false := by
  refine ⟨?_, ?_, ?_, ⟨rfl, rfl, rfl⟩, ?_⟩
  · intro hflag
    simp [connStep, hflag]
  · intro hflag
    simp [connStep, hflag]
  · intro hflag
    simp only [connStep]
    by_cases hp : s.pendingReconnect = true
    · simp only [hp, if_true]
      unfold setupPresenceWebSocket
      simp [hflag]
    · simp only [Bool.not_eq_true] at hp
      simp [hp]
  · exact (conn_dead_run evs (connStep s ConnEvent.teardown) rfl rfl).2

/-- Witness for C8: from a live connection with the flag set, a close
schedules the reconnect task, and after teardown a close followed by the
timer firing leaves the socket closed. -/
theorem C8_reconnect_teardown_witness :
    (connStep liveConn ConnEvent.socketClosed).pendingReconnect = true ∧
    (runConn (connStep liveConn ConnEvent.teardown)
      [ConnEvent.socketClosed, ConnEvent.timerFires]).wsAlive = false := by
  constructor
  · exact ((C8_reconnect_teardown liveConn
      [ConnEvent.socketClosed, ConnEvent.timerFires]).1 rfl).1
  · exact (C8_reconnect_teardown liveConn
      [ConnEvent.socketClosed, ConnEvent.timerFires]).2.2.2.2

/-- Claim C9: candidates arriving before the remote description is set are
buffered in arrival order; setting the remote description applies every
buffered candidate exactly once in order and empties the buffer;
candidates arriving afterwards are applied directly; the relay itself
never buffers (its state is unchanged by relaying). -/
theorem C9_ice_candidate_buffering (s : PeerNegotiation) (c d : Nat)
    (room : Room) (m : SignalMsg) :
    ((onRemoteDescription s d).appliedCandidates =
        s.appliedCandidates ++ s.pendingIceCandidates ∧
      (onRemoteDescription s d).pendingIceCandidates = [] ∧
      (onRemoteDescription s d).remoteDescription = some d) ∧
    (s.remoteDescription = none →
      (onIceCandidate s c).pendingIceCandidates =
        s.pendingIceCandidates ++ [c] ∧
      (onIceCandidate s c).appliedCandidates = s.appliedCandidates) ∧
    (∀ d0, s.remoteDescription = some d0 →
      (onIceCandidate s c).appliedCandidates = s.appliedCandidates ++ [c] ∧
      (onIceCandidate s c).pendingIceCandidates = s.pendingIceCandidates) ∧
    (relaySignal room m).2 = room := by
  refine ⟨⟨rfl, rfl, rfl⟩, ?_, ?_, rfl⟩
  · intro hnone
    simp [onIceCandidate, hnone]
  · intro d0 hsome
    simp [onIceCandidate, hsome]

/-- Witness for C9: with no remote description, candidates 4 then 5 are
buffered in order, and setting the remote description applies both. -/
theorem C9_ice_candidate_buffering_witness :
    (onIceCandidate bufOne 5).pendingIceCandidates = [4, 5] ∧
    (onRemoteDescription bufTwo 9).appliedCandidates = [4, 5] := by
  constructor
  · exact ((C9_ice_candidate_buffering bufOne 5 9 initialRoom
      { kind := SignalKind.offer, payload := 0, sender := 0 }).2.1 rfl).1
  · exact (C9_ice_candidate_buffering bufTwo 5 9 initialRoom
      { kind := SignalKind.offer, payload := 0, sender := 0 }).1.1

/-- Claim C10: endCall always returns the session to the initial state —
call-end is sent and the socket closed only when the socket is open, the
peer connection is closed when present, every local track is stopped, and
all session state is reset; invoking endCall on the initial state leaves
it unchanged and performs no actions. -/
theorem C10_endCall_reset (s : SessionState) :
    (endCall s).1 = initialSession ∧
    (s.wsOpen = false → EndAction.sendCallEnd ∉ (endCall s).2 ∧
      EndAction.closeSocket ∉ (endCall s).2) ∧
    (s.wsOpen = true → EndAction.sendCallEnd ∈ (endCall s).2 ∧
      EndAction.closeSocket ∈ (endCall s).2) ∧
    (s.pcOpen = true → EndAction.closePeer ∈ (endCall s).2) ∧
    (∀ tracks, s.localStream = some tracks →
      ∀ t ∈ tracks, EndAction.stopTrack t ∈ (endCall s).2) ∧
    endCall initialSession = (initialSession, []) := by
  refine ⟨rfl, ?_, ?_, ?_, ?_, rfl⟩
  · intro hws
    unfold endCall
    simp [hws]
  · intro hws
    unfold endCall
    simp [hws]
  · intro hpc
    unfold endCall
    simp [hpc]
  · intro tracks htr t ht
    unfold endCall
    simp only [List.mem_append]
    right
    simp only [htr, Option.getD_some, List.mem_map]
    exact ⟨t, ht, rfl⟩

/-- Witness for C10: ending an active session with an open socket, open
peer connection and one local track emits the call-end message and stops
the track, and the state is reset. -/
theorem C10_endCall_reset_witness :
    (endCall activeSession).1 = initialSession ∧
    EndAction.sendCallEnd ∈ (endCall activeSession).2 ∧
    EndAction.stopTrack 4 ∈ (endCall activeSession).2 := by
  refine ⟨?_, ?_, ?_⟩
  · exact (C10_endCall_reset activeSession).1
  · exact ((C10_endCall_reset activeSession).2.2.1 rfl).1
  · exact (C10_endCall_reset activeSession).2.2.2.2.1 [4] rfl 4 (by decide)

end Sociala
